import Mathlib

/-!
Verification of the go-algorand gossip-network excerpt.

The development shallowly embeds the Go source under `src/`:
* `agreement/selector.go` (membership helper, seed/balance round computation);
* the `network` package test file, which contains the source of
  `broadcastWithTimestamp` and the tests that pin down the behaviour of the
  network code.  Where the network implementation itself is outside the
  excerpt, a definition is modelled from the specification (its doc comment
  says so explicitly).

Machine integers (`uint64`) are embedded as `Nat` with explicit reduction
modulo `2^64` at every operation where Go overflow can matter.
-/

namespace Agreement

/-- `2^64`, the modulus of Go's `uint64` arithmetic. -/
def U64 : Nat := 2 ^ 64

/-- The fields of `config.ConsensusParams` that `selector.go` reads.
Each numeric field is a `uint64` value, kept as a `Nat` below `U64`. -/
structure ConsensusParams where
  SeedLookback : Nat
  SeedRefreshInterval : Nat
  TwinSeeds : Bool
  IncorrectBalLookback : Bool
  deriving DecidableEq

/-- Well-formedness of a `uint64`-backed parameter record. -/
def ConsensusParams.WF (c : ConsensusParams) : Prop :=
  c.SeedLookback < U64 ∧ c.SeedRefreshInterval < U64

/-- `basics.Round.SubSaturate`: `if r < x { return 0 }; return r - x`.
`Nat` subtraction is exactly this saturating subtraction. -/
def subSaturate (r x : Nat) : Nat := r - x

/-- `balanceRound` from `agreement/selector.go`.  Go evaluates
`2 * SeedRefreshInterval * SeedLookback` and `2*SeedRefreshInterval +
SeedLookback + 1` and `r + 2` in `uint64`, so each intermediate operation is
reduced mod `2^64`. -/
def balanceRound (r : Nat) (cparams : ConsensusParams) : Nat :=
  if cparams.TwinSeeds then
    subSaturate r ((2 * cparams.SeedRefreshInterval % U64) * cparams.SeedLookback % U64)
  else
    let lookback := ((2 * cparams.SeedRefreshInterval % U64) + cparams.SeedLookback) % U64
    let lookback := (lookback + 1) % U64
    if cparams.IncorrectBalLookback then
      subSaturate ((r + 2) % U64) lookback
    else
      subSaturate r lookback

/-- `seedRound` from `agreement/selector.go`:
`r.SubSaturate(basics.Round(cparams.SeedLookback))`. -/
def seedRound (r : Nat) (cparams : ConsensusParams) : Nat :=
  subSaturate r cparams.SeedLookback

/-- Opaque account address (`basics.Address` is an opaque digest here). -/
abbrev Address := Nat

/-- Opaque committee seed (`committee.Seed`). -/
abbrev Seed := Nat

/-- Opaque balance record payload (`basics.BalanceRecord`). -/
abbrev BalanceRecord := Nat

/-- `selector` from `agreement/selector.go`. -/
structure Selector where
  Seed : Seed
  Round : Nat
  Period : Nat
  Step : Nat
  deriving DecidableEq

/-- `committee.Membership`: the fields assigned by `membership`. -/
structure Membership where
  Record : BalanceRecord
  Selector : Selector
  TotalMoney : Nat
  deriving DecidableEq

/-- The four queries of `LedgerReader` that `membership` performs.  Each
fallible Go call is embedded as an `Except String` result. -/
structure LedgerReader where
  ConsensusParams : Nat → Except String ConsensusParams
  BalanceRecord : Nat → Address → Except String BalanceRecord
  Circulation : Nat → Except String Nat
  Seed : Nat → Except String Seed

/-- Modelled from the spec: the round whose consensus parameters govern
round `r`.  The derivation (`ParamsRound`) lives outside the excerpted
source; the excerpt only shows `membership` calling it, and no claim depends
on its value, so it is modelled as the round itself. -/
def ParamsRound (r : Nat) : Nat := r

/-- `membership` from `agreement/selector.go`: query consensus parameters,
the balance record at the balance round, circulation at the balance round
and the seed at the seed round, returning at the first failure (wrapping the
error text as the Go code does with `fmt.Errorf`), and otherwise assemble
the `Membership` value. -/
def membership (l : LedgerReader) (addr : Address) (r p s : Nat) :
    Except String Membership :=
  match l.ConsensusParams (ParamsRound r) with
  | Except.error e => Except.error e
  | Except.ok cparams =>
    let balRnd := balanceRound r cparams
    let seedRnd := seedRound r cparams
    match l.BalanceRecord balRnd addr with
    | Except.error e =>
      Except.error ("Service.initializeVote (r=" ++ toString r ++
        "): Failed to obtain balance record for address " ++ toString addr ++
        " in round " ++ toString balRnd ++ ": " ++ e)
    | Except.ok record =>
      match l.Circulation balRnd with
      | Except.error e =>
        Except.error ("Service.initializeVote (r=" ++ toString r ++
          "): Failed to obtain total circulation in round " ++
          toString balRnd ++ ": " ++ e)
      | Except.ok total =>
        match l.Seed seedRnd with
        | Except.error e =>
          Except.error ("Service.initializeVote (r=" ++ toString r ++
            "): Failed to obtain seed in round " ++ toString seedRnd ++
            ": " ++ e)
        | Except.ok seed =>
          Except.ok { Record := record
                      Selector := { Seed := seed, Round := r, Period := p, Step := s }
                      TotalMoney := total }

/-- A concrete ledger on which all four queries succeed, used to instantiate
the membership theorem. -/
def testLedger : LedgerReader where
  ConsensusParams := fun _ => Except.ok ⟨2, 3, false, true⟩
  BalanceRecord := fun rnd a => Except.ok (rnd + a)
  Circulation := fun rnd => Except.ok (1000 + rnd)
  Seed := fun rnd => Except.ok (7 + rnd)

end Agreement

namespace Agreement

/-- C8: `membership` fails exactly when one of its four ledger queries fails
(consensus parameters at the params round; balance record and circulation at
the balance round; seed at the seed round), and on success returns the
`Membership` whose `Record` is the balance record, whose `TotalMoney` is the
circulation, and whose `Selector` combines the seed at the seed round with
exactly the given round, period and step. -/
theorem membership_spec (l : LedgerReader) (addr : Address) (r p s : Nat) :
    ((∃ e, membership l addr r p s = Except.error e) ↔
      ((∃ e, l.ConsensusParams (ParamsRound r) = Except.error e) ∨
       (∃ cp, l.ConsensusParams (ParamsRound r) = Except.ok cp ∧
         ((∃ e, l.BalanceRecord (balanceRound r cp) addr = Except.error e) ∨
          (∃ e, l.Circulation (balanceRound r cp) = Except.error e) ∨
          (∃ e, l.Seed (seedRound r cp) = Except.error e))))) ∧
    (∀ cp record total seed,
      l.ConsensusParams (ParamsRound r) = Except.ok cp →
      l.BalanceRecord (balanceRound r cp) addr = Except.ok record →
      l.Circulation (balanceRound r cp) = Except.ok total →
      l.Seed (seedRound r cp) = Except.ok seed →
      membership l addr r p s =
        Except.ok { Record := record
                    Selector := { Seed := seed, Round := r, Period := p, Step := s }
                    TotalMoney := total }) := by
  constructor
  · unfold membership
    cases hcp : l.ConsensusParams (ParamsRound r) with
    | error e => simp [hcp]
    | ok cp =>
      cases hbr : l.BalanceRecord (balanceRound r cp) addr with
      | error e => simp [hcp, hbr]
      | ok record =>
        cases hcirc : l.Circulation (balanceRound r cp) with
        | error e => simp [hcp, hbr, hcirc]
        | ok total =>
          cases hseed : l.Seed (seedRound r cp) with
          | error e => simp [hcp, hbr, hcirc, hseed]
          | ok seed => simp [hcp, hbr, hcirc, hseed]
  · intro cp record total seed hcp hbr hcirc hseed
    unfold membership
    simp [hcp, hbr, hcirc, hseed]

/-- Instantiation of the membership theorem on a ledger whose four queries
all succeed. -/
theorem membership_spec_witness :
    membership testLedger 5 10 1 2 =
      Except.ok { Record := 8
                  Selector := { Seed := 15, Round := 10, Period := 1, Step := 2 }
                  TotalMoney := 1003 } :=
  (membership_spec testLedger 5 10 1 2).2 ⟨2, 3, false, true⟩ 8 1003 15
    rfl rfl rfl rfl

/-- C9: the claim reads `balanceRound`'s lookback as exact arithmetic, but Go
computes it in `uint64`: at `r = 2^64 - 1` with `IncorrectBalLookback` set,
`r + 2` wraps to `1`, the code returns `0`, while the claimed
`(r+2).SubSaturate(2*SeedRefreshInterval + SeedLookback + 1)` is `2^64 - 2`. -/
theorem balanceRound_overflow_counterexample :
    balanceRound (U64 - 1) ⟨0, 1, false, true⟩ = 0 ∧
    subSaturate ((U64 - 1) + 2) (2 * 1 + 0 + 1) = U64 - 2 ∧
    (0 : Nat) ≠ U64 - 2 := by
  refine ⟨rfl, rfl, by decide⟩

/-- C9 (amended): whenever the lookback computations stay below `2^64`
(no `uint64` overflow), `seedRound` and `balanceRound` are saturating
subtractions of the exact lookbacks: `seedRound r = r - SeedLookback` when
`SeedLookback ≤ r` and `0` otherwise, and `balanceRound` saturates `r`
(or `r + 2` under `IncorrectBalLookback`) minus the exact lookback at `0`. -/
theorem seedRound_balanceRound_saturate (r : Nat) (cp : ConsensusParams)
    (h1 : 2 * cp.SeedRefreshInterval * cp.SeedLookback < U64)
    (h2 : 2 * cp.SeedRefreshInterval + cp.SeedLookback + 1 < U64)
    (h3 : r + 2 < U64) :
    seedRound r cp = (if cp.SeedLookback ≤ r then r - cp.SeedLookback else 0) ∧
    balanceRound r cp =
      (if cp.TwinSeeds then
        subSaturate r (2 * cp.SeedRefreshInterval * cp.SeedLookback)
      else if cp.IncorrectBalLookback then
        subSaturate (r + 2) (2 * cp.SeedRefreshInterval + cp.SeedLookback + 1)
      else
        subSaturate r (2 * cp.SeedRefreshInterval + cp.SeedLookback + 1)) := by
  have hsri : 2 * cp.SeedRefreshInterval % U64 = 2 * cp.SeedRefreshInterval :=
    Nat.mod_eq_of_lt (by omega)
  constructor
  · unfold seedRound subSaturate
    split <;> omega
  · unfold balanceRound subSaturate
    rw [hsri]
    split
    · congr 1
      exact Nat.mod_eq_of_lt h1
    · have hlb1 : (2 * cp.SeedRefreshInterval + cp.SeedLookback) % U64 =
          2 * cp.SeedRefreshInterval + cp.SeedLookback :=
        Nat.mod_eq_of_lt (by omega)
      have hlb2 : (2 * cp.SeedRefreshInterval + cp.SeedLookback + 1) % U64 =
          2 * cp.SeedRefreshInterval + cp.SeedLookback + 1 :=
        Nat.mod_eq_of_lt h2
      simp only [hlb1, hlb2]
      split
      · rw [Nat.mod_eq_of_lt h3]
      · rfl

/-- Instantiation of the amended C9 theorem at a concrete round and
parameter set. -/
theorem seedRound_balanceRound_saturate_witness :
    seedRound 10 ⟨2, 3, false, true⟩ =
      (if (2 : Nat) ≤ 10 then 10 - 2 else 0) ∧
    balanceRound 10 ⟨2, 3, false, true⟩ =
      (if false = true then subSaturate 10 (2 * 3 * 2)
       else if true = true then subSaturate (10 + 2) (2 * 3 + 2 + 1)
       else subSaturate 10 (2 * 3 + 2 + 1)) :=
  seedRound_balanceRound_saturate 10 ⟨2, 3, false, true⟩
    (by decide) (by decide) (by decide)

end Agreement

namespace Network

/-- A protocol tag: the short fixed-width identifier selecting a handler. -/
abbrev Tag := String

/-- Modelled from the spec: the static per-tag classification that selects
the high-priority broadcast queue ("select the high-priority or bulk queue
by a static per-tag classification").  The concrete tag set lives outside
the excerpted source; it is modelled as a fixed list of tags. -/
def highPriorityTags : List Tag := ["AV", "PP"]

/-- Whether a tag is classified high-priority (a pure function of the tag). -/
def highPriorityTag (tag : Tag) : Bool := highPriorityTags.contains tag

/-- A broadcast request: (tag, payload, enqueue-time); times in nanoseconds. -/
structure BroadcastRequest where
  tag : Tag
  data : List Nat
  enqueueTime : Int
  deriving DecidableEq

/-- A bounded Go channel of broadcast requests: its capacity plus the queued
items, oldest first. -/
structure BChan where
  cap : Nat
  items : List BroadcastRequest
  deriving DecidableEq

/-- A channel is full when it holds `cap` items. -/
def BChan.full (c : BChan) : Bool := c.cap ≤ c.items.length

/-- Non-blocking channel send, Go's `select { case ch <- x: ... default: ... }`:
`none` when the channel is full, otherwise the channel with `x` appended. -/
def BChan.trySend (c : BChan) (x : BroadcastRequest) : Option BChan :=
  if c.full then none else some { c with items := c.items ++ [x] }

/-- The two node-level broadcast queues of a `WebsocketNetwork`. -/
structure WNQueues where
  broadcastQueueHighPrio : BChan
  broadcastQueueBulk : BChan
  deriving DecidableEq

/-- The error values surfaced by the network send paths. -/
inductive NetError where
  | errBcastQFull
  deriving DecidableEq

/-- `broadcastWithTimestamp` from the source: build the request, pick the
bulk queue unless the tag is high-priority, and attempt a non-blocking
enqueue, returning `nil` (here `none`) on success and `errBcastQFull` when
the selected queue is full.  State passing makes the channel effect
explicit: the result pairs the updated queues with the returned error. -/
def broadcastWithTimestamp (wn : WNQueues) (tag : Tag) (data : List Nat)
    (when : Int) : WNQueues × Option NetError :=
  let request : BroadcastRequest := { tag := tag, data := data, enqueueTime := when }
  if highPriorityTag tag then
    match wn.broadcastQueueHighPrio.trySend request with
    | some q => ({ wn with broadcastQueueHighPrio := q }, none)
    | none => (wn, some NetError.errBcastQFull)
  else
    match wn.broadcastQueueBulk.trySend request with
    | some q => ({ wn with broadcastQueueBulk := q }, none)
    | none => (wn, some NetError.errBcastQFull)

end Network

namespace Network

/-- C6: for every broadcast call, the node-level queue is selected by the
static per-tag classification (high-priority queue iff the tag is classified
high-priority, otherwise bulk); the enqueue is non-blocking, returning nil
exactly when the selected queue has room (the request is then appended to it
and the other queue is untouched) and the queue-full error exactly when the
selected queue is full (the state is then unchanged).  The return value is
therefore a function of the selected queue's occupancy alone — it never
reflects downstream delivery. -/
theorem broadcastWithTimestamp_spec (wn : WNQueues) (tag : Tag)
    (data : List Nat) (when : Int) :
    ((broadcastWithTimestamp wn tag data when).2 = none ↔
      (if highPriorityTag tag then wn.broadcastQueueHighPrio
       else wn.broadcastQueueBulk).items.length <
        (if highPriorityTag tag then wn.broadcastQueueHighPrio
         else wn.broadcastQueueBulk).cap) ∧
    ((broadcastWithTimestamp wn tag data when).2 = some NetError.errBcastQFull ↔
      (if highPriorityTag tag then wn.broadcastQueueHighPrio
       else wn.broadcastQueueBulk).cap ≤
        (if highPriorityTag tag then wn.broadcastQueueHighPrio
         else wn.broadcastQueueBulk).items.length) ∧
    ((broadcastWithTimestamp wn tag data when).2 = some NetError.errBcastQFull →
      (broadcastWithTimestamp wn tag data when).1 = wn) ∧
    (highPriorityTag tag = true →
      (broadcastWithTimestamp wn tag data when).1.broadcastQueueBulk =
        wn.broadcastQueueBulk ∧
      ((broadcastWithTimestamp wn tag data when).2 = none →
        (broadcastWithTimestamp wn tag data when).1.broadcastQueueHighPrio.items =
          wn.broadcastQueueHighPrio.items ++ [⟨tag, data, when⟩])) ∧
    (highPriorityTag tag = false →
      (broadcastWithTimestamp wn tag data when).1.broadcastQueueHighPrio =
        wn.broadcastQueueHighPrio ∧
      ((broadcastWithTimestamp wn tag data when).2 = none →
        (broadcastWithTimestamp wn tag data when).1.broadcastQueueBulk.items =
          wn.broadcastQueueBulk.items ++ [⟨tag, data, when⟩])) := by
  unfold broadcastWithTimestamp BChan.trySend BChan.full
  cases htag : highPriorityTag tag with
  | true =>
    cases hfull : decide (wn.broadcastQueueHighPrio.cap ≤
        wn.broadcastQueueHighPrio.items.length) with
    | true =>
      have h := of_decide_eq_true hfull
      simp [htag, h]
    | false =>
      have h := of_decide_eq_false hfull
      simp [htag, h, Nat.lt_of_not_le h]
  | false =>
    cases hfull : decide (wn.broadcastQueueBulk.cap ≤
        wn.broadcastQueueBulk.items.length) with
    | true =>
      have h := of_decide_eq_true hfull
      simp [htag, h]
    | false =>
      have h := of_decide_eq_false hfull
      simp [htag, h, Nat.lt_of_not_le h]

/-- Instantiation of the C6 theorem: a high-priority tag with room in the
high-priority queue enqueues there and leaves the bulk queue unchanged. -/
theorem broadcastWithTimestamp_spec_witness :
    highPriorityTag "AV" = true ∧
    (broadcastWithTimestamp ⟨⟨2, []⟩, ⟨0, []⟩⟩ "AV" [1, 2]
        0).1.broadcastQueueBulk = ⟨0, []⟩ :=
  ⟨by decide,
   ((broadcastWithTimestamp_spec ⟨⟨2, []⟩, ⟨0, []⟩⟩ "AV" [1, 2]
      0).2.2.2.1 (by decide)).1⟩

end Network

namespace Network

/-- One hour in nanoseconds (Go's time duration unit). -/
def hourNs : Int := 3600 * 1000000000

/-- Modelled from the spec: a broadcast request is stale at per-peer
dispatch time when its age (now minus enqueue-time) exceeds the maximum
queue duration ("Messages older than a maximum queue duration at the time
of per-peer dispatch are silently dropped"). -/
def staleRequest (maxQueueDuration now : Int) (req : BroadcastRequest) : Bool :=
  maxQueueDuration < now - req.enqueueTime

/-- Modelled from the spec: the per-peer dispatch step of the broadcast
thread keeps exactly the requests whose age is within the window; stale
requests are silently dropped. -/
def dispatchRequests (maxQueueDuration now : Int)
    (reqs : List BroadcastRequest) : List BroadcastRequest :=
  reqs.filter (fun req => !(staleRequest maxQueueDuration now req))

/-- Modelled from the spec: fan each surviving request out to every current
peer's queue; the result lists every (peer, request) delivery. -/
def dispatchDeliveries (maxQueueDuration now : Int) (peers : List Nat)
    (reqs : List BroadcastRequest) : List (Nat × BroadcastRequest) :=
  (dispatchRequests maxQueueDuration now reqs).flatMap
    (fun req => peers.map (fun pid => (pid, req)))

/-- The ten requests of the delayed-message-drop scenario: identical
payloads enqueued with timestamps spanning minus five hours to plus four
hours around the dispatch instant. -/
def delayedDropScenario : List BroadcastRequest :=
  [⟨"DD", [102, 111, 111], -5 * hourNs⟩,
   ⟨"DD", [102, 111, 111], -4 * hourNs⟩,
   ⟨"DD", [102, 111, 111], -3 * hourNs⟩,
   ⟨"DD", [102, 111, 111], -2 * hourNs⟩,
   ⟨"DD", [102, 111, 111], -1 * hourNs⟩,
   ⟨"DD", [102, 111, 111], 0 * hourNs⟩,
   ⟨"DD", [102, 111, 111], 1 * hourNs⟩,
   ⟨"DD", [102, 111, 111], 2 * hourNs⟩,
   ⟨"DD", [102, 111, 111], 3 * hourNs⟩,
   ⟨"DD", [102, 111, 111], 4 * hourNs⟩]

/-- The five requests of the scenario whose age is within the one-hour
window at any dispatch instant in (0, one hour]. -/
def delayedDropDelivered : List BroadcastRequest :=
  [⟨"DD", [102, 111, 111], 0 * hourNs⟩,
   ⟨"DD", [102, 111, 111], 1 * hourNs⟩,
   ⟨"DD", [102, 111, 111], 2 * hourNs⟩,
   ⟨"DD", [102, 111, 111], 3 * hourNs⟩,
   ⟨"DD", [102, 111, 111], 4 * hourNs⟩]

end Network

namespace Network

/-- C1: at per-peer dispatch time a broadcast request is delivered iff its
age is within the maximum queue duration; a request older than the window
is dropped and reaches no peer, while every in-window request reaches every
peer.  In the ten-message scenario spanning minus five to plus four hours
around dispatch against a one-hour window, exactly the five in-window
messages survive dispatch, at any dispatch instant within the hour after
enqueue. -/
theorem delayed_message_drop (maxDur now : Int) (peers : List Nat)
    (reqs : List BroadcastRequest) (req : BroadcastRequest) :
    (req ∈ reqs →
      (req ∈ dispatchRequests maxDur now reqs ↔
        now - req.enqueueTime ≤ maxDur)) ∧
    (maxDur < now - req.enqueueTime →
      ∀ pid, (pid, req) ∉ dispatchDeliveries maxDur now peers reqs) ∧
    (req ∈ reqs → now - req.enqueueTime ≤ maxDur →
      ∀ pid ∈ peers, (pid, req) ∈ dispatchDeliveries maxDur now peers reqs) ∧
    (∀ δ : Int, 0 < δ → δ ≤ hourNs →
      dispatchRequests hourNs δ delayedDropScenario = delayedDropDelivered ∧
      (dispatchRequests hourNs δ delayedDropScenario).length = 5) := by
  refine ⟨?_, ?_, ?_, ?_⟩
  · intro hmem
    simp [dispatchRequests, List.mem_filter, hmem, staleRequest]
  · intro hstale pid
    simp only [dispatchDeliveries, List.mem_flatMap, List.mem_map]
    rintro ⟨a, ha, pid2, hpid2, heq⟩
    obtain ⟨rfl, rfl⟩ : pid2 = pid ∧ a = req := by
      constructor <;> [exact congrArg Prod.fst heq; exact congrArg Prod.snd heq]
    rw [dispatchRequests, List.mem_filter] at ha
    simp [staleRequest] at ha
    omega
  · intro hmem hfresh pid hpid
    simp only [dispatchDeliveries, List.mem_flatMap, List.mem_map]
    refine ⟨req, ?_, pid, hpid, rfl⟩
    rw [dispatchRequests, List.mem_filter]
    simp [staleRequest, hmem]
    omega
  · intro δ h0 h1
    simp only [hourNs] at h1
    have s0 : staleRequest hourNs δ ⟨"DD", [102, 111, 111], -5 * hourNs⟩ = true := by
      simp [staleRequest, hourNs]; omega
    have s1 : staleRequest hourNs δ ⟨"DD", [102, 111, 111], -4 * hourNs⟩ = true := by
      simp [staleRequest, hourNs]; omega
    have s2 : staleRequest hourNs δ ⟨"DD", [102, 111, 111], -3 * hourNs⟩ = true := by
      simp [staleRequest, hourNs]; omega
    have s3 : staleRequest hourNs δ ⟨"DD", [102, 111, 111], -2 * hourNs⟩ = true := by
      simp [staleRequest, hourNs]; omega
    have s4 : staleRequest hourNs δ ⟨"DD", [102, 111, 111], -1 * hourNs⟩ = true := by
      simp [staleRequest, hourNs]; omega
    have f0 : staleRequest hourNs δ ⟨"DD", [102, 111, 111], 0 * hourNs⟩ = false := by
      simp [staleRequest, hourNs]; omega
    have f1 : staleRequest hourNs δ ⟨"DD", [102, 111, 111], 1 * hourNs⟩ = false := by
      simp [staleRequest, hourNs]; omega
    have f2 : staleRequest hourNs δ ⟨"DD", [102, 111, 111], 2 * hourNs⟩ = false := by
      simp [staleRequest, hourNs]; omega
    have f3 : staleRequest hourNs δ ⟨"DD", [102, 111, 111], 3 * hourNs⟩ = false := by
      simp [staleRequest, hourNs]; omega
    have f4 : staleRequest hourNs δ ⟨"DD", [102, 111, 111], 4 * hourNs⟩ = false := by
      simp [staleRequest, hourNs]; omega
    have heq : dispatchRequests hourNs δ delayedDropScenario =
        delayedDropDelivered := by
      rw [dispatchRequests, delayedDropScenario, delayedDropDelivered]
      simp only [List.filter, s0, s1, s2, s3, s4, f0, f1, f2, f3, f4,
        Bool.not_true, Bool.not_false]
    exact ⟨heq, by rw [heq]; rfl⟩

/-- Instantiation of the C1 theorem: at dispatch one nanosecond after the
reference instant, exactly the five in-window messages survive. -/
theorem delayed_message_drop_witness :
    dispatchRequests hourNs 1 delayedDropScenario = delayedDropDelivered ∧
    (dispatchRequests hourNs 1 delayedDropScenario).length = 5 :=
  (delayed_message_drop hourNs 1 [] delayedDropScenario
      ⟨"DD", [102, 111, 111], 0⟩).2.2.2 1 (by decide) (by decide)

end Network

namespace Network

/-- A message-content digest: exact hashing within a bucket means no false
positives, so the digest is modelled as the (tag, payload) content itself. -/
abbrev Digest := Tag × List Nat

/-- Exact membership of a digest in one bucket. -/
def bucketHas (b : List Digest) (d : Digest) : Bool :=
  b.any (fun x => decide (x = d))

/-- Modelled from the spec (Deduplication Filter): a fixed number of
hash-bucket sets, each a fixed-capacity set of message-content digests;
the head bucket is current. -/
structure MessageFilter where
  bucketCount : Nat
  bucketCap : Nat
  buckets : List (List Digest)
  deriving DecidableEq

/-- A fresh filter: the configured number of empty buckets. -/
def makeMessageFilter (count cap : Nat) : MessageFilter :=
  ⟨count, cap, List.replicate count []⟩

/-- Whether a digest is present in any bucket of the filter. -/
def MessageFilter.seen (f : MessageFilter) (d : Digest) : Bool :=
  f.buckets.any (fun b => bucketHas b d)

/-- Modelled from the spec: record a digest in the current bucket; when the
current bucket reaches capacity a new empty bucket becomes current and the
oldest bucket is discarded, keeping the bucket count fixed. -/
def MessageFilter.record (f : MessageFilter) (d : Digest) : MessageFilter :=
  match f.buckets with
  | [] => f
  | cur :: rest =>
    let cur2 := d :: cur
    if f.bucketCap ≤ cur2.length then
      { f with buckets := ([] :: cur2 :: rest).take f.bucketCount }
    else
      { f with buckets := cur2 :: rest }

/-- The side-effecting membership test gating inbound delivery: report
whether the digest was already present, recording it if it was not. -/
def MessageFilter.checkMessage (f : MessageFilter) (d : Digest) :
    MessageFilter × Bool :=
  if f.seen d then (f, true) else (f.record d, false)

/-- Modelled from the spec: the inbound path of a node with the dedup filter
enabled: each arriving message passes the filter and is handed to the
registered handler only when it is not a duplicate.  Returns the final
filter and the list of messages actually delivered to handlers. -/
def processIncoming (f : MessageFilter) :
    List Digest → MessageFilter × List Digest
  | [] => (f, [])
  | m :: rest =>
    let step := f.checkMessage m
    let tail := processIncoming step.1 rest
    (tail.1, if step.2 then tail.2 else m :: tail.2)

/-- Any number of empty buckets never reports a digest as seen. -/
theorem seen_replicate_nil (c cap n : Nat) (d : Digest) :
    MessageFilter.seen ⟨c, cap, List.replicate n []⟩ d = false := by
  induction n with
  | zero => rfl
  | succ k ih =>
    simp only [MessageFilter.seen, List.replicate, List.any_cons] at ih ⊢
    simp [bucketHas, ih]

/-- C2: on a node with the inbound dedup filter enabled (fresh filter with
at least one bucket of capacity at least two), sending the same (tag,
payload) content three times in quick succession invokes the handler
exactly once: the delivered list is exactly one copy of the message. -/
theorem dup_filter_single_delivery (count cap : Nat) (m : Digest)
    (hcount : 1 ≤ count) (hcap : 2 ≤ cap) :
    (processIncoming (makeMessageFilter count cap) [m, m, m]).2 = [m] := by
  obtain ⟨k, rfl⟩ : ∃ k, count = k + 1 := ⟨count - 1, by omega⟩
  have hfresh : (makeMessageFilter (k + 1) cap).seen m = false :=
    seen_replicate_nil (k + 1) cap (k + 1) m
  have hrec : (makeMessageFilter (k + 1) cap).record m =
      ⟨k + 1, cap, (m :: []) :: List.replicate k []⟩ := by
    simp only [makeMessageFilter, MessageFilter.record, List.replicate]
    rw [if_neg (by simp; omega)]
  have hseen2 : MessageFilter.seen ⟨k + 1, cap, (m :: []) :: List.replicate k []⟩ m = true := by
    simp [MessageFilter.seen, bucketHas]
  simp only [processIncoming, MessageFilter.checkMessage, hfresh, hrec,
    hseen2, if_neg, if_pos, Bool.false_eq_true, ite_false, ite_true]

/-- Instantiation of the C2 theorem at the inbound filter configuration of
the dedup test (five buckets of capacity 512). -/
theorem dup_filter_single_delivery_witness :
    (processIncoming (makeMessageFilter 5 512)
        [("AV", [1, 2, 3]), ("AV", [1, 2, 3]), ("AV", [1, 2, 3])]).2 =
      [("AV", [1, 2, 3])] :=
  dup_filter_single_delivery 5 512 ("AV", [1, 2, 3]) (by decide) (by decide)

end Network

namespace Network

/-- Modelled from the spec: a peer as the slow-writer monitor sees it — its
identity and the timestamp of its last successful send activity (the
intermittent outgoing-message enqueue time). -/
structure WsPeer where
  id : Nat
  lastSendActivity : Int
  deriving DecidableEq

/-- A peer is stalled at time now when the gap since its last successful
send exceeds the staleness threshold (the maximum queue duration). -/
def stalledPeer (threshold now : Int) (p : WsPeer) : Bool :=
  threshold < now - p.lastSendActivity

/-- Modelled from the spec: one pass of the slow-peer monitor loop —
every stalled peer is forcibly closed and removed from the peer set, every
other peer is kept. -/
def monitorStep (threshold now : Int) (peers : List WsPeer) : List WsPeer :=
  peers.filter (fun p => !(stalledPeer threshold now p))

/-- Broadcast fan-out over a peer set: the request is delivered to every
peer currently in the set. -/
def peerFanOut (peers : List WsPeer) (req : BroadcastRequest) :
    List (Nat × BroadcastRequest) :=
  peers.map (fun p => (p.id, req))

/-- C3: a peer whose write path stalls past the staleness threshold at time
t is removed by the monitor at some tick of its schedule (ticks at t0,
t0+interval, ...) lying within two monitor intervals of t, and at that tick
every healthy peer is kept in the peer set and still receives broadcast
fan-out. -/
theorem slow_peer_disconnection (threshold interval t0 t : Int)
    (p : WsPeer) (peers : List WsPeer)
    (hint : 0 < interval) (ht0 : t0 ≤ t)
    (hstall : stalledPeer threshold t p = true) :
    ∃ tick : Int,
      (∃ k : Nat, tick = t0 + (k : Int) * interval) ∧
      t ≤ tick ∧ tick ≤ t + 2 * interval ∧
      p ∉ monitorStep threshold tick peers ∧
      (∀ q ∈ peers, stalledPeer threshold tick q = false →
        q ∈ monitorStep threshold tick peers ∧
        ∀ req, (q.id, req) ∈ peerFanOut (monitorStep threshold tick peers) req) := by
  have hdm := Int.ediv_add_emod (t - t0) interval
  have hm0 : 0 ≤ (t - t0) % interval := Int.emod_nonneg (t - t0) (ne_of_gt hint)
  have hm1 : (t - t0) % interval < interval := Int.emod_lt_of_pos (t - t0) hint
  have he0 : 0 ≤ (t - t0) / interval :=
    Int.ediv_nonneg (by omega) (le_of_lt hint)
  have hkey : t0 + ((t - t0) / interval + 1) * interval =
      t + (interval - (t - t0) % interval) := by
    have hexp : ((t - t0) / interval + 1) * interval =
        interval * ((t - t0) / interval) + interval := by ring
    rw [hexp]
    linarith [hdm]
  refine ⟨t0 + ((t - t0) / interval + 1) * interval,
    ⟨((t - t0) / interval + 1).toNat, ?_⟩, ?_, ?_, ?_, ?_⟩
  · rw [Int.toNat_of_nonneg (by omega)]
  · rw [hkey]; omega
  · rw [hkey]; omega
  · intro hmem
    rw [monitorStep, List.mem_filter] at hmem
    have hstill : stalledPeer threshold
        (t0 + ((t - t0) / interval + 1) * interval) p = true := by
      simp only [stalledPeer, decide_eq_true_eq] at hstall ⊢
      rw [hkey]
      omega
    rw [hstill] at hmem
    simp at hmem
  · intro q hq hfreshq
    have hqmem : q ∈ monitorStep threshold
        (t0 + ((t - t0) / interval + 1) * interval) peers := by
      rw [monitorStep, List.mem_filter, hfreshq]
      exact ⟨hq, rfl⟩
    exact ⟨hqmem, fun req => List.mem_map.mpr ⟨q, hqmem, rfl⟩⟩

/-- Instantiation of the C3 theorem: threshold 100, monitor interval 50,
schedule starting at 0, peer stalled at time 75. -/
theorem slow_peer_disconnection_witness :
    ∃ tick : Int,
      (∃ k : Nat, tick = 0 + (k : Int) * 50) ∧
      (75 : Int) ≤ tick ∧ tick ≤ 75 + 2 * 50 ∧
      (⟨1, -50⟩ : WsPeer) ∉ monitorStep 100 tick [⟨1, -50⟩, ⟨2, 70⟩] ∧
      (∀ q ∈ ([⟨1, -50⟩, ⟨2, 70⟩] : List WsPeer),
        stalledPeer 100 tick q = false →
        q ∈ monitorStep 100 tick [⟨1, -50⟩, ⟨2, 70⟩] ∧
        ∀ req, (q.id, req) ∈ peerFanOut (monitorStep 100 tick [⟨1, -50⟩, ⟨2, 70⟩]) req) :=
  slow_peer_disconnection 100 50 0 75 ⟨1, -50⟩ [⟨1, -50⟩, ⟨2, 70⟩]
    (by decide) (by decide) (by decide)

end Network

namespace Network

/-- A peer as the priority tracker sees it: identity plus the weight
announced in the priority handshake. -/
structure PrioPeer where
  id : Nat
  prioWeight : Nat
  deriving DecidableEq

/-- q outranks p when q announced a strictly higher weight (ties broken by
a fixed identity order so that ranking is total). -/
def outranks (q p : PrioPeer) : Bool :=
  decide (p.prioWeight < q.prioWeight) ||
    (decide (p.prioWeight = q.prioWeight) && decide (q.id < p.id))

/-- The number of peers ranked above p. -/
def prioRank (peers : List PrioPeer) (p : PrioPeer) : Nat :=
  (peers.filter (fun q => outranks q p)).length

/-- Modelled from the spec: connection-budget enforcement — when the node
is above its budget, the lowest-priority-weight peers are disconnected in
favour of higher-priority peers, i.e. the budget highest-ranked peers are
retained. -/
def enforceBudget (budget : Nat) (peers : List PrioPeer) : List PrioPeer :=
  peers.filter (fun p => decide (prioRank peers p < budget))

/-- Message fan-out over tracked peers: weights are not consulted. -/
def prioFanOut (peers : List PrioPeer) (req : BroadcastRequest) :
    List (Nat × BroadcastRequest) :=
  peers.map (fun p => (p.id, req))

/-- Filtering with a pointwise-weaker predicate keeps at most as many
elements. -/
theorem filter_length_le_of_imp {α : Type} (l : List α) (f g : α → Bool)
    (h : ∀ x, f x = true → g x = true) :
    (l.filter f).length ≤ (l.filter g).length := by
  induction l with
  | nil => simp
  | cons a tl ih =>
    by_cases hfa : f a = true
    · rw [List.filter_cons, List.filter_cons, if_pos hfa, if_pos (h a hfa)]
      simpa using ih
    · rw [List.filter_cons, if_neg hfa]
      by_cases hga : g a = true
      · rw [List.filter_cons, if_pos hga]
        exact Nat.le_trans ih (Nat.le_succ _)
      · rw [List.filter_cons, if_neg hga]
        exact ih

/-- Filtering with a pointwise-weaker predicate keeps strictly fewer
elements when some list member passes only the weaker predicate. -/
theorem filter_length_lt_of_mem {α : Type} (l : List α) (f g : α → Bool)
    (b : α) (h : ∀ x, f x = true → g x = true) (hb : b ∈ l)
    (hfb : f b = false) (hgb : g b = true) :
    (l.filter f).length < (l.filter g).length := by
  induction l with
  | nil => cases hb
  | cons a tl ih =>
    rcases List.mem_cons.mp hb with rfl | hbtl
    · rw [List.filter_cons, List.filter_cons, if_neg (by simp [hfb]),
        if_pos hgb]
      exact Nat.lt_succ_of_le (filter_length_le_of_imp tl f g h)
    · by_cases hfa : f a = true
      · rw [List.filter_cons, List.filter_cons, if_pos hfa, if_pos (h a hfa)]
        simpa using ih hbtl
      · rw [List.filter_cons, if_neg hfa]
        by_cases hga : g a = true
        · rw [List.filter_cons, if_pos hga]
          exact Nat.lt_trans (ih hbtl) (Nat.lt_succ_self _)
        · rw [List.filter_cons, if_neg hga]
          exact ih hbtl

/-- C4: budget enforcement never disconnects a higher-weight peer while
retaining a lower-weight one (if C with the smaller announced weight is
retained, so is B); recorded weights do not influence message fan-out
(reweighting the peers arbitrarily leaves fan-out unchanged); and in the
concrete scenario — budget 1, peer B with weight 100, peer C with weight
10 — B is retained and C is disconnected. -/
theorem prio_budget_preference (budget : Nat) (peers : List PrioPeer)
    (B C : PrioPeer) :
    (B ∈ peers → C.prioWeight < B.prioWeight →
      C ∈ enforceBudget budget peers → B ∈ enforceBudget budget peers) ∧
    (∀ (req : BroadcastRequest) (f : PrioPeer → Nat),
      prioFanOut (peers.map (fun p => ⟨p.id, f p⟩)) req =
        prioFanOut peers req) ∧
    enforceBudget 1 [⟨0, 100⟩, ⟨1, 10⟩] = [⟨0, 100⟩] := by
  refine ⟨?_, ?_, by decide⟩
  · intro hB hW hC
    rw [enforceBudget, List.mem_filter] at hC
    rw [enforceBudget, List.mem_filter]
    refine ⟨hB, ?_⟩
    have h1 : ∀ x, outranks x B = true → outranks x C = true := by
      intro x hx
      simp only [outranks, Bool.or_eq_true, Bool.and_eq_true,
        decide_eq_true_eq] at hx ⊢
      left
      omega
    have h2 : outranks B B = false := by
      simp [outranks]
    have h3 : outranks B C = true := by
      simp only [outranks, Bool.or_eq_true, Bool.and_eq_true,
        decide_eq_true_eq]
      left
      exact hW
    have hlt := filter_length_lt_of_mem peers (fun q => outranks q B)
      (fun q => outranks q C) B h1 hB h2 h3
    have hCrank := of_decide_eq_true hC.2
    exact decide_eq_true (by
      unfold prioRank at *
      omega)
  · intro req f
    simp [prioFanOut, List.map_map, Function.comp]

/-- Instantiation of the C4 theorem: with budget 2 both peers are retained,
so retention of the lower-weight peer implies retention of the higher. -/
theorem prio_budget_preference_witness :
    (⟨0, 100⟩ : PrioPeer) ∈ enforceBudget 2 [⟨0, 100⟩, ⟨1, 10⟩] :=
  (prio_budget_preference 2 [⟨0, 100⟩, ⟨1, 10⟩] ⟨0, 100⟩ ⟨1, 10⟩).1
    (by decide) (by decide) (by decide)

end Network

namespace Network

/-- Modelled from the spec (Relay policy): the per-node state that decides
whether received broadcast-tagged traffic is forwarded to peers. -/
structure RelayNode where
  relayMessages : Bool
  deriving DecidableEq

/-- Modelled from the spec: at setup, a node forwards gossip traffic when it
is a relay (it has a listening address) or when the force-relay
configuration flag is set for it. -/
def setupRelayMessages (netAddress : String) (forceRelayMessages : Bool) : Bool :=
  !(netAddress == "") || forceRelayMessages

/-- Modelled from the spec: the Relay call forwards the request to the
broadcast path only when relaying is enabled on the node, and otherwise
drops it (returning success either way). -/
def relayCall (n : RelayNode) (req : BroadcastRequest) :
    Option BroadcastRequest :=
  if n.relayMessages then some req else none

/-- The requests a node actually forwards out of a sequence of Relay calls. -/
def relayBatch (n : RelayNode) (reqs : List BroadcastRequest) :
    List BroadcastRequest :=
  reqs.filterMap (relayCall n)

/-- The repeated 3-byte payload used by the force-relay scenario. -/
def relayScenarioReq : BroadcastRequest := ⟨"DD", [1, 2, 3], 0⟩

/-- C5: a node with relaying disabled forwards nothing, the same node with
relaying forced on (force-relay flag at setup) forwards everything; in the
scenario, of 5 Relay calls each on a non-relaying upstream node and on a
force-relay upstream node, exactly 5 requests are forwarded downstream, and
after relaying is enabled on the first node its 10 further Relay calls
forward exactly 10 more. -/
theorem force_message_relaying (req : BroadcastRequest)
    (reqs : List BroadcastRequest) :
    (∀ n : RelayNode, n.relayMessages = false → relayCall n req = none) ∧
    (∀ n : RelayNode, n.relayMessages = false → relayBatch n reqs = []) ∧
    setupRelayMessages "" false = false ∧
    setupRelayMessages "" true = true ∧
    (∀ n : RelayNode, n.relayMessages = true → relayBatch n reqs = reqs) ∧
    (relayBatch ⟨setupRelayMessages "" false⟩
        (List.replicate 5 relayScenarioReq)).length +
      (relayBatch ⟨setupRelayMessages "" true⟩
        (List.replicate 5 relayScenarioReq)).length = 5 ∧
    (relayBatch ⟨true⟩ (List.replicate 10 relayScenarioReq)).length = 10 := by
  refine ⟨?_, ?_, rfl, rfl, ?_, by decide, by decide⟩
  · intro n hn
    simp [relayCall, hn]
  · intro n hn
    simp [relayBatch, relayCall, hn]
  · intro n hn
    induction reqs with
    | nil => rfl
    | cons a tl ih =>
      simp only [relayBatch, List.filterMap_cons] at ih ⊢
      simp [relayCall, hn] at ih ⊢
      exact ih

/-- Instantiation of the C5 theorem: a node with relaying disabled drops a
Relay call. -/
theorem force_message_relaying_witness :
    relayCall ⟨false⟩ relayScenarioReq = none :=
  (force_message_relaying relayScenarioReq []).1 ⟨false⟩ rfl

end Network

namespace Network

/-- Whether a char list begins with the given pattern. -/
def beginsWith : List Char → List Char → Bool
  | [], _ => true
  | _ :: _, [] => false
  | p :: ps, x :: xs => decide (p = x) && beginsWith ps xs

/-- Upper-case hexadecimal digit for a value below 16. -/
def hexDigit (n : Nat) : Char :=
  if n < 10 then Char.ofNat (48 + n) else Char.ofNat (55 + n)

/-- Characters a URL path segment may carry unescaped: alphanumerics,
the unreserved marks and the sub-delimiters allowed in a segment. -/
def pathAllowedChar (c : Char) : Bool :=
  c.isAlphanum ||
    ['-', '_', '.', '~', '$', '&', '+', ',', ';', '=', ':', '@'].contains c

/-- Percent-encode one character (ASCII payloads). -/
def escapeChar (c : Char) : List Char :=
  if pathAllowedChar c then [c]
  else ['%', hexDigit (c.toNat / 16 % 16), hexDigit (c.toNat % 16)]

/-- URL path-segment escaping of a string. -/
def pathEscape (s : String) : String :=
  String.mk (s.data.flatMap escapeChar)

/-- Modelled from the spec: the gossip endpoint URL derived from a
phonebook address — the path encodes the protocol version and the
URL-escaped genesis ID for coarse compatibility filtering; http and bare
host:port addresses map to the ws scheme and https maps to wss. -/
def addrToGossipAddr (genesisID addr : String) : String :=
  let path := "/v1/" ++ pathEscape genesisID ++ "/gossip"
  if beginsWith "https://".data addr.data then
    "wss://" ++ String.mk (addr.data.drop 8) ++ path
  else if beginsWith "http://".data addr.data then
    "ws://" ++ String.mk (addr.data.drop 7) ++ path
  else
    "ws://" ++ addr ++ path

/-- C7: the gossip endpoint URL keeps the host:port of the phonebook
address, maps http and bare addresses to ws and https to wss, and its path
is /v1/<escaped-genesis-id>/gossip; on the gossip-address test vectors the
space in the genesis ID is escaped to %20. -/
theorem addr_to_gossip_addr_spec (genesisID addr : String) :
    (beginsWith "https://".data addr.data = true →
      addrToGossipAddr genesisID addr =
        "wss://" ++ String.mk (addr.data.drop 8) ++
          ("/v1/" ++ pathEscape genesisID ++ "/gossip")) ∧
    (beginsWith "https://".data addr.data = false →
      beginsWith "http://".data addr.data = true →
      addrToGossipAddr genesisID addr =
        "ws://" ++ String.mk (addr.data.drop 7) ++
          ("/v1/" ++ pathEscape genesisID ++ "/gossip")) ∧
    (beginsWith "https://".data addr.data = false →
      beginsWith "http://".data addr.data = false →
      addrToGossipAddr genesisID addr =
        "ws://" ++ addr ++ ("/v1/" ++ pathEscape genesisID ++ "/gossip")) ∧
    addrToGossipAddr "test genesisID" "r7.algodev.network.:4166" =
      "ws://r7.algodev.network.:4166/v1/test%20genesisID/gossip" ∧
    addrToGossipAddr "test genesisID" "http://r7.algodev.network.:4166" =
      "ws://r7.algodev.network.:4166/v1/test%20genesisID/gossip" ∧
    addrToGossipAddr "test genesisID" "https://r7.algodev.network.:4166" =
      "wss://r7.algodev.network.:4166/v1/test%20genesisID/gossip" := by
  refine ⟨?_, ?_, ?_, by decide, by decide, by decide⟩
  · intro h
    simp [addrToGossipAddr, h]
  · intro h1 h2
    simp [addrToGossipAddr, h1, h2]
  · intro h1 h2
    simp [addrToGossipAddr, h1, h2]

/-- Instantiation of the C7 theorem: a bare host:port address maps to the
ws scheme with the versioned, escaped-genesis path. -/
theorem addr_to_gossip_addr_spec_witness :
    addrToGossipAddr "g id" "h:1" =
      "ws://" ++ "h:1" ++ ("/v1/" ++ pathEscape "g id" ++ "/gossip") :=
  (addr_to_gossip_addr_spec "g id" "h:1").2.2.1 (by decide) (by decide)

end Network

namespace Network

/-- Split a char list at every occurrence of the separator. -/
def splitOnChar (c : Char) : List Char → List (List Char)
  | [] => [[]]
  | x :: xs =>
    let r := splitOnChar c xs
    if x = c then [] :: r
    else
      match r with
      | [] => [[x]]
      | y :: ys => (x :: y) :: ys

/-- Split a URL at the first scheme separator, yielding scheme and rest. -/
def splitScheme : List Char → Option (List Char × List Char)
  | [] => none
  | ':' :: '/' :: '/' :: rest => some ([], rest)
  | x :: xs => (splitScheme xs).map (fun pr => (x :: pr.1, pr.2))

/-- All characters are decimal digits. -/
def allDigits (l : List Char) : Bool := l.all Char.isDigit

/-- Parse a URL authority into host and port: a bracketed IPv6 host
followed by an optional numeric port, or a plain host with an optional
numeric port; anything else (such as a second colon after the port) fails
as Go's URL parser does. -/
def parseAuthority (a : List Char) : Option (List Char × List Char) :=
  match a with
  | '[' :: rest =>
    match splitOnChar ']' rest with
    | [h, p] =>
      match p with
      | [] => some (h, [])
      | ':' :: port =>
        if allDigits port && decide (port ≠ []) then some (h, port) else none
      | _ => none
    | _ => none
  | _ =>
    match splitOnChar ':' a with
    | [h] => some (h, [])
    | [h, p] => if allDigits p && decide (p ≠ []) then some (h, p) else none
    | _ => none

/-- A parsed URL: scheme, host (unbracketed), optional port, path. -/
structure ParsedURL where
  scheme : String
  host : String
  port : String
  path : String
  deriving DecidableEq

/-- Modelled from the spec: parse an address of the form
scheme://authority/path into its components, failing on a malformed
authority. -/
def parseURL (s : String) : Option ParsedURL :=
  match splitScheme s.data with
  | none => none
  | some (sch, rest) =>
    let auth := rest.takeWhile (fun c => !(decide (c = '/')))
    let path := rest.dropWhile (fun c => !(decide (c = '/')))
    match parseAuthority auth with
    | none => none
    | some (h, port) =>
      some ⟨String.mk sch, String.mk h, String.mk port, String.mk path⟩

/-- Render a parsed URL back to a string, bracketing IPv6 hosts. -/
def renderURL (u : ParsedURL) : String :=
  u.scheme ++ "://" ++
    (if u.host.data.contains ':' then "[" ++ u.host ++ "]" else u.host) ++
    (if u.port = "" then "" else ":" ++ u.port) ++ u.path

/-- Numeric value of a digit string. -/
def digitsValue (l : List Char) : Nat :=
  l.foldl (fun acc c => acc * 10 + (c.toNat - 48)) 0

/-- One dotted-quad component: nonempty, digits only, at most 3, value
at most 255. -/
def isIPv4Part (l : List Char) : Bool :=
  decide (l ≠ []) && allDigits l && decide (l.length ≤ 3) &&
    decide (digitsValue l ≤ 255)

/-- A dotted-quad IPv4 address. -/
def isIPv4 (s : List Char) : Bool :=
  match splitOnChar '.' s with
  | [a, b, c, d] => isIPv4Part a && isIPv4Part b && isIPv4Part c && isIPv4Part d
  | _ => false

/-- A hexadecimal digit. -/
def isHexChar (c : Char) : Bool :=
  c.isDigit || (decide ('a' ≤ c) && decide (c ≤ 'f')) ||
    (decide ('A' ≤ c) && decide (c ≤ 'F'))

/-- A coloned-groups IPv6 address: at most eight groups of at most four
hex digits. -/
def isIPv6 (s : List Char) : Bool :=
  s.contains ':' &&
    (decide ((splitOnChar ':' s).length ≤ 8) &&
      (splitOnChar ':' s).all (fun g => decide (g.length ≤ 4) && g.all isHexChar))

/-- Go's net.ParseIP modelled: the string itself when it is a valid IPv4 or
IPv6 address, nil (none) otherwise. -/
def parseIP (s : String) : Option String :=
  if isIPv4 s.data || isIPv6 s.data then some s else none

/-- Modelled from the spec: updateURLHost rewrites the host component of an
address announced by a peer (used to rewrite the host when the peer is
behind NAT or a proxy).  A nil replacement host yields an empty address and
no error; a URL that fails to parse yields an error; otherwise only the
host is replaced (IPv6 hosts bracketed) and scheme, port and path are kept. -/
def updateURLHost (originalAddress : String) (host : Option String) :
    Except String String :=
  match host with
  | none => Except.ok ""
  | some h =>
    match parseURL originalAddress with
    | none => Except.error ("unable to parse url " ++ originalAddress)
    | some u => Except.ok (renderURL { u with host := h })

end Network

namespace Network

/-- C10: updateURLHost rewrites only the host of the original address,
keeping scheme, port and path and bracketing IPv6 replacement hosts; a
replacement host that does not parse as an IP yields an empty address and
no error; an error occurs exactly when the original URL fails to parse.
The six test vectors of the source behave as recorded there. -/
theorem update_url_host_spec (originalAddress h : String) :
    updateURLHost originalAddress none = Except.ok "" ∧
    (parseIP h = none →
      updateURLHost originalAddress (parseIP h) = Except.ok "") ∧
    (∀ u : ParsedURL, parseURL originalAddress = some u →
      updateURLHost originalAddress (some h) =
        Except.ok (u.scheme ++ "://" ++
          (if h.data.contains ':' then "[" ++ h ++ "]" else h) ++
          (if u.port = "" then "" else ":" ++ u.port) ++ u.path)) ∧
    ((∃ e, updateURLHost originalAddress (some h) = Except.error e) ↔
      parseURL originalAddress = none) ∧
    updateURLHost "http://[::]:8080/aaa/bbb/ccc" (parseIP "123.20.50.128") =
      Except.ok "http://123.20.50.128:8080/aaa/bbb/ccc" ∧
    updateURLHost "http://[::]:80/aaa/bbb/ccc"
        (parseIP "2601:192:4b40:6a23:2999:acf5:c0f6:47dc") =
      Except.ok "http://[2601:192:4b40:6a23:2999:acf5:c0f6:47dc]:80/aaa/bbb/ccc" ∧
    updateURLHost "http://[2601:192:4b40:6a23:2999:acf5:c0f6:47dc:7334]:80/aaa/bbb/ccc"
        (parseIP "123.20.50.128") =
      Except.ok "http://123.20.50.128:80/aaa/bbb/ccc" ∧
    updateURLHost "http://[2601:192:4b40:6a23:2999:acf5:c0f6:47dc]:80/aaa/bbb/ccc"
        (parseIP "123.20.50.128") =
      Except.ok "http://123.20.50.128:80/aaa/bbb/ccc" ∧
    (∃ e, updateURLHost "http://[2601:192:4b40:6a23:2999:acf5:c0f6:47dc]:80:aaa/bbb/ccc"
        (parseIP "123.20.50.128") = Except.error e) ∧
    updateURLHost "http://[2001:0db8:85a3:0000:0000:8a2e:0370:7334]:80/aaa/bbb/ccc"
        (parseIP "123.20.50") = Except.ok "" := by
  refine ⟨rfl, ?_, ?_, ?_, rfl, rfl, rfl, rfl,
    ⟨"unable to parse url http://[2601:192:4b40:6a23:2999:acf5:c0f6:47dc]:80:aaa/bbb/ccc",
      rfl⟩, rfl⟩
  · intro hp
    rw [hp]
    rfl
  · intro u hu
    simp [updateURLHost, hu, renderURL]
  · cases hp : parseURL originalAddress with
    | none => simp [updateURLHost, hp]
    | some u => simp [updateURLHost, hp]

/-- Instantiation of the C10 theorem: rewriting the host of a plain URL
keeps scheme, port and path. -/
theorem update_url_host_spec_witness :
    updateURLHost "http://a:80/p" (some "b") =
      Except.ok ("http" ++ "://" ++
        (if ("b" : String).data.contains ':' then "[" ++ "b" ++ "]" else "b") ++
        (if ("80" : String) = "" then "" else ":" ++ "80") ++ "/p") :=
  (update_url_host_spec "http://a:80/p" "b").2.2.1 ⟨"http", "a", "80", "/p"⟩
    (by decide)

end Network
